import Mathlib

/-!
Verification of the snake-game state machine in `PEICD100_CPP.cpp`.

The game-state transition rules (the tick-advance block of `main`), the
`reset_game` operation and the helper functions `is_opposite`, `next_head`,
`contains` and `random_empty_cell` are embedded shallowly.  Randomness is
made explicit: `random_empty_cell` consumes a stream of draws
(`draws : Nat → Pos`), and the tick/reset operations take an abstract
relocation oracle `rnd : List Pos → Pos` standing for the call
`random_empty_cell(W, H, snake)` on the current body.
-/

namespace Snake

/-- `struct Pos { int x, y; }` with value equality (`operator==`). -/
structure Pos where
  x : Int
  y : Int
deriving DecidableEq, Repr, Inhabited

/-- `enum class Dir { Up, Down, Left, Right }`. -/
inductive Dir where
  | Up
  | Down
  | Left
  | Right
deriving DecidableEq, Repr, Inhabited

/-- `is_opposite`: the fixed pairing Up↔Down, Left↔Right. -/
def is_opposite : Dir → Dir → Bool
  | Dir.Up, Dir.Down => true
  | Dir.Down, Dir.Up => true
  | Dir.Left, Dir.Right => true
  | Dir.Right, Dir.Left => true
  | _, _ => false

/-- `next_head`: move the head one cell in direction `d`. -/
def next_head (head : Pos) (d : Dir) : Pos :=
  match d with
  | Dir.Up => ⟨head.x, head.y - 1⟩
  | Dir.Down => ⟨head.x, head.y + 1⟩
  | Dir.Left => ⟨head.x - 1, head.y⟩
  | Dir.Right => ⟨head.x + 1, head.y⟩

/-- `contains`: linear scan of the body for a cell equal to `p`. -/
def contains (snake : List Pos) (p : Pos) : Bool :=
  snake.any fun s => decide (s = p)

/-- A cell lies inside the grid bounds [0,w) × [0,h).  Every draw of the
C++ `uniform_int_distribution` pair `(dx, dy)` satisfies this. -/
def inGrid (w h : Int) (p : Pos) : Prop :=
  0 ≤ p.x ∧ p.x < w ∧ 0 ≤ p.y ∧ p.y < h

/-- `random_empty_cell`: unbounded rejection sampling.  The pseudo-random
source is made explicit as the stream `draws`; the loop returns the first
drawn cell not contained in the snake, and needs the hypothesis that such
a draw exists at all — without it the C++ loop runs forever. -/
def random_empty_cell (snake : List Pos) (draws : Nat → Pos)
    (hfree : ∃ i, contains snake (draws i) = false) : Pos :=
  draws (Nat.find hfree)

/-- The aggregate game state mutated by `main`'s loop: snake body
(front = head), current and pending direction, food, score, game-over. -/
structure GameState where
  snake : List Pos
  dir : Dir
  pending : Dir
  food : Pos
  score : Int
  gameOver : Bool
deriving DecidableEq, Repr

/-- `reset_game`: 2-cell snake centered on the grid (head at
`(w/2, h/2)`, tail at `(w/2 - 1, h/2)`), Direction = Right,
pending = Right, score 0, game-over false, food from the random source
(abstracted as the oracle `rnd` applied to the fresh body). -/
def reset_game (w h : Int) (rnd : List Pos → Pos) : GameState :=
  let snake : List Pos := [⟨w / 2, h / 2⟩, ⟨w / 2 - 1, h / 2⟩]
  { snake := snake
    dir := Dir.Right
    pending := Dir.Right
    food := rnd snake
    score := 0
    gameOver := false }

/-- One tick of the update block in `main` (lines 198–225): commit the
pending direction unless opposite, compute the new head, check the wall,
move/grow, eat and relocate food or drop the tail, then the
self-collision scan from the second cell of the final body.  When
game-over is already set the whole block is skipped. -/
def tick (w h : Int) (rnd : List Pos → Pos) (st : GameState) : GameState :=
  if st.gameOver then st
  else
    let dir := if is_opposite st.dir st.pending then st.dir else st.pending
    let nh := next_head st.snake.headI dir
    if nh.x < 0 ∨ w ≤ nh.x ∨ nh.y < 0 ∨ h ≤ nh.y then
      { st with dir := dir, gameOver := true }
    else
      let grown := nh :: st.snake
      if nh = st.food then
        { snake := grown
          dir := dir
          pending := st.pending
          food := rnd grown
          score := st.score + 1
          gameOver := contains grown.tail nh }
      else
        let moved := grown.dropLast
        { snake := moved
          dir := dir
          pending := st.pending
          food := st.food
          score := st.score
          gameOver := contains moved.tail nh }

/-- The relocation oracle always returns a cell off the body it is given:
this is exactly the exit condition of `random_empty_cell`'s loop. -/
def FreshOracle (rnd : List Pos → Pos) : Prop :=
  ∀ s : List Pos, contains s (rnd s) = false

/-- States reachable in `main`'s loop with relocation oracle `rnd`:
the reset state, any tick successor, and any keypress successor
(a direction key overwrites `pending` only; `r` while game-over
re-runs `reset_game`, already covered by the first constructor). -/
inductive Reachable (w h : Int) (rnd : List Pos → Pos) : GameState → Prop
  | reset : Reachable w h rnd (reset_game w h rnd)
  | tick {st : GameState} : Reachable w h rnd st →
      Reachable w h rnd (tick w h rnd st)
  | input {st : GameState} (d : Dir) : Reachable w h rnd st →
      Reachable w h rnd { st with pending := d }

/-- The direction the tick commits in step 1. -/
def commitDir (st : GameState) : Dir :=
  if is_opposite st.dir st.pending then st.dir else st.pending

/-- The new head the tick computes in step 2. -/
def tickHead (st : GameState) : Pos :=
  next_head st.snake.headI (commitDir st)

theorem tick_eq_of_not_gameOver (w h : Int) (rnd : List Pos → Pos)
    (st : GameState) (hgo : st.gameOver = false) :
    tick w h rnd st =
      (let dir := commitDir st
       let nh := tickHead st
       if nh.x < 0 ∨ w ≤ nh.x ∨ nh.y < 0 ∨ h ≤ nh.y then
         { st with dir := dir, gameOver := true }
       else
         let grown := nh :: st.snake
         if nh = st.food then
           { snake := grown, dir := dir, pending := st.pending,
             food := rnd grown, score := st.score + 1,
             gameOver := contains grown.tail nh }
         else
           let moved := grown.dropLast
           { snake := moved, dir := dir, pending := st.pending,
             food := st.food, score := st.score,
             gameOver := contains moved.tail nh }) := by
  simp only [tick, hgo, Bool.false_eq_true, if_false, commitDir, tickHead]

theorem tick_dir_eq (w h : Int) (rnd : List Pos → Pos) (st : GameState)
    (hgo : st.gameOver = false) :
    (tick w h rnd st).dir = commitDir st := by
  rw [tick_eq_of_not_gameOver w h rnd st hgo]
  dsimp only
  split
  · rfl
  · split <;> rfl

/-- C1: on a tick from a non-game-over state, a non-opposite pending
direction is committed (`dir` becomes the pre-tick `pending`), while a
pending direction exactly opposite to the current one leaves `dir`
unchanged (the 180° turn request is silently ignored). -/
theorem tick_direction_commit (w h : Int) (rnd : List Pos → Pos)
    (st : GameState) (hgo : st.gameOver = false) :
    (is_opposite st.dir st.pending = false →
      (tick w h rnd st).dir = st.pending) ∧
    (is_opposite st.dir st.pending = true →
      (tick w h rnd st).dir = st.dir) := by
  refine ⟨fun hop => ?_, fun hop => ?_⟩ <;>
    rw [tick_dir_eq w h rnd st hgo, commitDir, hop] <;> simp

theorem tick_direction_commit_witness :
    (tick 30 20 (fun _ => ⟨0, 0⟩)
      ⟨[⟨5, 5⟩, ⟨4, 5⟩], Dir.Right, Dir.Up, ⟨0, 0⟩, 0, false⟩).dir = Dir.Up ∧
    (tick 30 20 (fun _ => ⟨0, 0⟩)
      ⟨[⟨5, 5⟩, ⟨4, 5⟩], Dir.Right, Dir.Left, ⟨9, 9⟩, 0, false⟩).dir = Dir.Right :=
  ⟨(tick_direction_commit 30 20 _ _ rfl).1 rfl,
   (tick_direction_commit 30 20 _ _ rfl).2 rfl⟩

/-- C2: if the new head lies outside [0,w) × [0,h), the tick only sets
the game-over flag and commits the step-1 direction; snake, food, score
and pending are untouched, so no growth or shrink occurs.  In
particular a head at (w−1, y) moving Right hits the wall. -/
theorem tick_wall_collision (w h : Int) (rnd : List Pos → Pos) :
    (∀ st : GameState, st.gameOver = false →
      ((tickHead st).x < 0 ∨ w ≤ (tickHead st).x ∨
        (tickHead st).y < 0 ∨ h ≤ (tickHead st).y) →
      tick w h rnd st = { st with dir := commitDir st, gameOver := true }) ∧
    (∀ (st : GameState) (y : Int), st.gameOver = false →
      st.snake.headI = ⟨w - 1, y⟩ → commitDir st = Dir.Right →
      (tick w h rnd st).gameOver = true ∧
      (tick w h rnd st).snake = st.snake ∧
      (tick w h rnd st).food = st.food ∧
      (tick w h rnd st).score = st.score) := by
  have main : ∀ st : GameState, st.gameOver = false →
      ((tickHead st).x < 0 ∨ w ≤ (tickHead st).x ∨
        (tickHead st).y < 0 ∨ h ≤ (tickHead st).y) →
      tick w h rnd st = { st with dir := commitDir st, gameOver := true } := by
    intro st hgo hout
    rw [tick_eq_of_not_gameOver w h rnd st hgo]
    dsimp only
    rw [if_pos hout]
  refine ⟨main, fun st y hgo hhead hdir => ?_⟩
  have hout : (tickHead st).x < 0 ∨ w ≤ (tickHead st).x ∨
      (tickHead st).y < 0 ∨ h ≤ (tickHead st).y := by
    have : tickHead st = ⟨w, y⟩ := by
      rw [tickHead, hdir, hhead, next_head]
      simp
    rw [this]
    exact Or.inr (Or.inl le_rfl)
  rw [main st hgo hout]
  exact ⟨rfl, rfl, rfl, rfl⟩

theorem tick_wall_collision_witness :
    (tick 30 20 (fun _ => ⟨0, 0⟩)
      ⟨[⟨29, 5⟩, ⟨28, 5⟩], Dir.Right, Dir.Right, ⟨0, 0⟩, 0, false⟩).gameOver = true ∧
    (tick 30 20 (fun _ => ⟨0, 0⟩)
      ⟨[⟨29, 5⟩, ⟨28, 5⟩], Dir.Right, Dir.Right, ⟨0, 0⟩, 0, false⟩).snake =
      [⟨29, 5⟩, ⟨28, 5⟩] := by
  have h := (tick_wall_collision 30 20 (fun _ => ⟨0, 0⟩)).2
    ⟨[⟨29, 5⟩, ⟨28, 5⟩], Dir.Right, Dir.Right, ⟨0, 0⟩, 0, false⟩ 5 rfl (by decide) (by decide)
  exact ⟨h.1, h.2.1⟩

/-- C6: while the game-over flag is set, every tick (and hence every
iterated sequence of ticks) leaves the whole state unchanged: the
update block of `main` is skipped until a restart resets the state. -/
theorem tick_gameOver_frozen (w h : Int) (rnd : List Pos → Pos)
    (st : GameState) (hgo : st.gameOver = true) :
    ∀ n : Nat, (tick w h rnd)^[n] st = st := by
  intro n
  induction n with
  | zero => rfl
  | succ n ih =>
    rw [Function.iterate_succ_apply', ih]
    show tick w h rnd st = st
    simp [tick, hgo]

theorem tick_gameOver_frozen_witness :
    (tick 30 20 (fun _ => ⟨0, 0⟩))^[3]
      ⟨[⟨7, 7⟩, ⟨6, 7⟩], Dir.Up, Dir.Down, ⟨2, 2⟩, 4, true⟩ =
      ⟨[⟨7, 7⟩, ⟨6, 7⟩], Dir.Up, Dir.Down, ⟨2, 2⟩, 4, true⟩ :=
  tick_gameOver_frozen 30 20 (fun _ => ⟨0, 0⟩) _ rfl 3

/-- C3: on an in-bounds tick, a non-eating step keeps both snake length
and score unchanged, while an eating step increases the length by
exactly 1 and the score by exactly 1. -/
theorem tick_length_score (w h : Int) (rnd : List Pos → Pos)
    (st : GameState) (hgo : st.gameOver = false)
    (hin : ¬((tickHead st).x < 0 ∨ w ≤ (tickHead st).x ∨
      (tickHead st).y < 0 ∨ h ≤ (tickHead st).y)) :
    (tickHead st ≠ st.food →
      (tick w h rnd st).snake.length = st.snake.length ∧
      (tick w h rnd st).score = st.score) ∧
    (tickHead st = st.food →
      (tick w h rnd st).snake.length = st.snake.length + 1 ∧
      (tick w h rnd st).score = st.score + 1) := by
  rw [tick_eq_of_not_gameOver w h rnd st hgo]
  dsimp only
  rw [if_neg hin]
  constructor
  · intro hne
    rw [if_neg hne]
    exact ⟨by simp [List.length_dropLast], rfl⟩
  · intro heq
    rw [if_pos heq]
    exact ⟨by simp, rfl⟩

theorem tick_length_score_witness :
    ((⟨6, 5⟩ : Pos) ≠ (⟨0, 0⟩ : Pos) ∧
      (tick 30 20 (fun _ => ⟨0, 0⟩)
        ⟨[⟨5, 5⟩, ⟨4, 5⟩], Dir.Right, Dir.Right, ⟨0, 0⟩, 0, false⟩).snake.length = 2) ∧
    ((⟨6, 5⟩ : Pos) = (⟨6, 5⟩ : Pos) ∧
      (tick 30 20 (fun _ => ⟨0, 0⟩)
        ⟨[⟨5, 5⟩, ⟨4, 5⟩], Dir.Right, Dir.Right, ⟨6, 5⟩, 0, false⟩).score = 0 + 1) := by
  refine ⟨⟨by decide, ?_⟩, ⟨rfl, ?_⟩⟩
  · exact ((tick_length_score 30 20 (fun _ => ⟨0, 0⟩)
      ⟨[⟨5, 5⟩, ⟨4, 5⟩], Dir.Right, Dir.Right, ⟨0, 0⟩, 0, false⟩ rfl
      (by decide)).1 (by decide)).1
  · exact ((tick_length_score 30 20 (fun _ => ⟨0, 0⟩)
      ⟨[⟨5, 5⟩, ⟨4, 5⟩], Dir.Right, Dir.Right, ⟨6, 5⟩, 0, false⟩ rfl
      (by decide)).2 (by decide)).2

/-- C4: on an in-bounds tick the resulting game-over flag is exactly the
outcome of scanning the final body from its second cell for the new
head: it is true iff the new head equals some cell at index ≥ 1 of the
post-growth/shrink body, and stays false otherwise. -/
theorem tick_self_collision (w h : Int) (rnd : List Pos → Pos)
    (st : GameState) (hgo : st.gameOver = false)
    (hin : ¬((tickHead st).x < 0 ∨ w ≤ (tickHead st).x ∨
      (tickHead st).y < 0 ∨ h ≤ (tickHead st).y)) :
    (tick w h rnd st).gameOver =
      contains ((tick w h rnd st).snake).tail (tickHead st) := by
  rw [tick_eq_of_not_gameOver w h rnd st hgo]
  dsimp only
  rw [if_neg hin]
  split <;> rfl

theorem tick_self_collision_witness :
    ((tick 30 20 (fun _ => ⟨0, 0⟩)
        ⟨[⟨2, 2⟩, ⟨1, 2⟩, ⟨1, 3⟩, ⟨2, 3⟩], Dir.Left, Dir.Left, ⟨9, 9⟩, 0, false⟩).gameOver =
      contains ((tick 30 20 (fun _ => ⟨0, 0⟩)
        ⟨[⟨2, 2⟩, ⟨1, 2⟩, ⟨1, 3⟩, ⟨2, 3⟩], Dir.Left, Dir.Left, ⟨9, 9⟩, 0, false⟩).snake).tail
        (tickHead ⟨[⟨2, 2⟩, ⟨1, 2⟩, ⟨1, 3⟩, ⟨2, 3⟩], Dir.Left, Dir.Left, ⟨9, 9⟩, 0, false⟩)) ∧
    (tick 30 20 (fun _ => ⟨0, 0⟩)
        ⟨[⟨2, 2⟩, ⟨1, 2⟩, ⟨1, 3⟩, ⟨2, 3⟩], Dir.Left, Dir.Left, ⟨9, 9⟩, 0, false⟩).gameOver = true :=
  ⟨tick_self_collision 30 20 (fun _ => ⟨0, 0⟩)
      ⟨[⟨2, 2⟩, ⟨1, 2⟩, ⟨1, 3⟩, ⟨2, 3⟩], Dir.Left, Dir.Left, ⟨9, 9⟩, 0, false⟩ rfl (by decide),
   by decide⟩

/-- C10: on an in-bounds eating tick from a state where the food is off
the body, the self-collision scan cannot fire: the tail is kept, the
final body is the new head consed onto the old body, and the new head —
being the food cell — lies on none of the old cells, so the tick ends
with game-over still false. -/
theorem tick_eat_no_collision (w h : Int) (rnd : List Pos → Pos)
    (st : GameState) (hgo : st.gameOver = false)
    (hinv : contains st.snake st.food = false)
    (hin : ¬((tickHead st).x < 0 ∨ w ≤ (tickHead st).x ∨
      (tickHead st).y < 0 ∨ h ≤ (tickHead st).y))
    (heat : tickHead st = st.food) :
    (tick w h rnd st).gameOver = false := by
  rw [tick_eq_of_not_gameOver w h rnd st hgo]
  dsimp only
  rw [if_neg hin, if_pos heat]
  show contains (tickHead st :: st.snake).tail (tickHead st) = false
  rw [List.tail_cons, heat]
  exact hinv

theorem tick_eat_no_collision_witness :
    (tick 30 20 (fun _ => ⟨0, 0⟩)
      ⟨[⟨5, 5⟩, ⟨4, 5⟩], Dir.Right, Dir.Right, ⟨6, 5⟩, 0, false⟩).gameOver = false :=
  tick_eat_no_collision 30 20 (fun _ => ⟨0, 0⟩)
    ⟨[⟨5, 5⟩, ⟨4, 5⟩], Dir.Right, Dir.Right, ⟨6, 5⟩, 0, false⟩
    rfl (by decide) (by decide) (by decide)

theorem contains_iff (l : List Pos) (p : Pos) :
    contains l p = true ↔ p ∈ l := by
  simp only [contains, List.any_eq_true, decide_eq_true_eq]
  exact ⟨fun ⟨x, hx, he⟩ => he ▸ hx, fun hp => ⟨p, hp, rfl⟩⟩

theorem contains_eq_false_iff (l : List Pos) (p : Pos) :
    contains l p = false ↔ p ∉ l := by
  rw [← Bool.not_eq_true, contains_iff]

/-- A concrete relocation oracle that provably always returns a cell off
the body it is given: the x-coordinate exceeds every x in the body. -/
def freshCell (s : List Pos) : Pos :=
  ⟨(s.map Pos.x).foldr max 0 + 1, 0⟩

theorem le_foldr_max (l : List Int) (a : Int) (ha : a ∈ l) :
    a ≤ l.foldr max 0 := by
  induction l with
  | nil => cases ha
  | cons b t ih =>
    rcases List.mem_cons.mp ha with hb | ht
    · exact hb ▸ le_max_left _ _
    · exact le_trans (ih ht) (le_max_right _ _)

theorem freshCell_fresh : FreshOracle freshCell := by
  intro s
  rw [contains_eq_false_iff]
  intro hmem
  have hx : (freshCell s).x ∈ s.map Pos.x := List.mem_map_of_mem Pos.x hmem
  have := le_foldr_max (s.map Pos.x) _ hx
  simp only [freshCell] at this
  omega

theorem tick_preserves_food_free (w h : Int) (rnd : List Pos → Pos)
    (hf : FreshOracle rnd) (st : GameState)
    (ih : contains st.snake st.food = false) :
    contains (tick w h rnd st).snake (tick w h rnd st).food = false := by
  by_cases hgo : st.gameOver = true
  · simpa [tick, hgo] using ih
  · have hgo' : st.gameOver = false := by
      cases hb : st.gameOver
      · rfl
      · exact absurd hb hgo
    rw [tick_eq_of_not_gameOver w h rnd st hgo']
    dsimp only
    by_cases hout : (tickHead st).x < 0 ∨ w ≤ (tickHead st).x ∨
        (tickHead st).y < 0 ∨ h ≤ (tickHead st).y
    · rw [if_pos hout]
      exact ih
    · rw [if_neg hout]
      by_cases heat : tickHead st = st.food
      · rw [if_pos heat]
        exact hf _
      · rw [if_neg heat]
        show contains (tickHead st :: st.snake).dropLast st.food = false
        rw [contains_eq_false_iff] at ih ⊢
        intro hmem
        have hmem' := (List.dropLast_sublist _).subset hmem
        rcases List.mem_cons.mp hmem' with hhd | htl
        · exact heat hhd.symm
        · exact ih htl

/-- C5: `random_empty_cell` never returns a cell of the snake it is
given (its loop exits only off the body), and consequently the
food-off-the-body property is an invariant of every state reachable in
the main loop (reset, ticks, keypresses) when the relocation oracle has
the property proved of `random_empty_cell`. -/
theorem food_invariant (w h : Int) :
    (∀ (snake : List Pos) (draws : Nat → Pos)
        (hfree : ∃ i, contains snake (draws i) = false),
      contains snake (random_empty_cell snake draws hfree) = false) ∧
    (∀ rnd : List Pos → Pos, FreshOracle rnd →
      ∀ st : GameState, Reachable w h rnd st →
        contains st.snake st.food = false) := by
  constructor
  · intro snake draws hfree
    exact Nat.find_spec hfree
  · intro rnd hf st hr
    induction hr with
    | reset => exact hf _
    | tick _ ih => exact tick_preserves_food_free w h rnd hf _ ih
    | input d _ ih => exact ih

theorem food_invariant_witness :
    contains [(⟨0, 0⟩ : Pos)]
      (random_empty_cell [⟨0, 0⟩] (fun _ => ⟨1, 0⟩) ⟨0, by decide⟩) = false ∧
    contains (reset_game 30 20 freshCell).snake
      (reset_game 30 20 freshCell).food = false :=
  ⟨(food_invariant 30 20).1 [⟨0, 0⟩] (fun _ => ⟨1, 0⟩) ⟨0, by decide⟩,
   (food_invariant 30 20).2 freshCell freshCell_fresh _ Reachable.reset⟩

/-- C7: `reset_game` yields the fixed 2-cell snake with head at
(w/2, h/2) and tail at (w/2 − 1, h/2), Direction Right, pending Right,
score 0 and game-over false, with the food off the body; two resets
agree on every component except the food, which is a legal free cell in
both. -/
theorem reset_game_spec (w h : Int) (rnd : List Pos → Pos)
    (hf : FreshOracle rnd) :
    (reset_game w h rnd).snake = [⟨w / 2, h / 2⟩, ⟨w / 2 - 1, h / 2⟩] ∧
    (reset_game w h rnd).dir = Dir.Right ∧
    (reset_game w h rnd).pending = Dir.Right ∧
    (reset_game w h rnd).score = 0 ∧
    (reset_game w h rnd).gameOver = false ∧
    contains (reset_game w h rnd).snake (reset_game w h rnd).food = false ∧
    (∀ rnd2 : List Pos → Pos,
      (reset_game w h rnd).snake = (reset_game w h rnd2).snake ∧
      (reset_game w h rnd).dir = (reset_game w h rnd2).dir ∧
      (reset_game w h rnd).pending = (reset_game w h rnd2).pending ∧
      (reset_game w h rnd).score = (reset_game w h rnd2).score ∧
      (reset_game w h rnd).gameOver = (reset_game w h rnd2).gameOver ∧
      (FreshOracle rnd2 →
        contains (reset_game w h rnd2).snake (reset_game w h rnd2).food = false)) :=
  ⟨rfl, rfl, rfl, rfl, rfl, hf _,
   fun _ => ⟨rfl, rfl, rfl, rfl, rfl, fun hf2 => hf2 _⟩⟩

theorem reset_game_spec_witness :
    (reset_game 30 20 freshCell).snake = [⟨30 / 2, 20 / 2⟩, ⟨30 / 2 - 1, 20 / 2⟩] ∧
    contains (reset_game 30 20 freshCell).snake
      (reset_game 30 20 freshCell).food = false :=
  ⟨(reset_game_spec 30 20 freshCell freshCell_fresh).1,
   (reset_game_spec 30 20 freshCell freshCell_fresh).2.2.2.2.2.1⟩

/-- C9: the free-cell search is unbounded rejection sampling: whenever
some draw misses the snake it returns the first such draw (every
earlier draw lands on the body and is discarded); and for a snake
covering every in-grid cell, no in-grid draw can ever satisfy the exit
condition — there is no retry cap or fallback, so the loop never
exits. -/
theorem random_empty_cell_rejection (w h : Int) :
    (∀ (snake : List Pos) (draws : Nat → Pos)
        (hfree : ∃ i, contains snake (draws i) = false),
      contains snake (random_empty_cell snake draws hfree) = false ∧
      random_empty_cell snake draws hfree = draws (Nat.find hfree) ∧
      ∀ j < Nat.find hfree, contains snake (draws j) = true) ∧
    (∀ (snake : List Pos) (draws : Nat → Pos),
      (∀ p : Pos, inGrid w h p → contains snake p = true) →
      (∀ i, inGrid w h (draws i)) →
      ¬∃ i, contains snake (draws i) = false) := by
  constructor
  · intro snake draws hfree
    refine ⟨Nat.find_spec hfree, rfl, fun j hj => ?_⟩
    have hmin := Nat.find_min hfree hj
    simpa using hmin
  · rintro snake draws hall hgrid ⟨i, hi⟩
    rw [hall (draws i) (hgrid i)] at hi
    exact Bool.noConfusion hi

theorem random_empty_cell_rejection_witness :
    contains [(⟨0, 0⟩ : Pos)]
      (random_empty_cell [⟨0, 0⟩] (fun _ => ⟨2, 0⟩) ⟨0, by decide⟩) = false ∧
    ¬∃ i : Nat, contains [(⟨0, 0⟩ : Pos)] ((fun _ => (⟨0, 0⟩ : Pos)) i) = false :=
  ⟨((random_empty_cell_rejection 1 1).1 [⟨0, 0⟩] (fun _ => ⟨2, 0⟩) ⟨0, by decide⟩).1,
   (random_empty_cell_rejection 1 1).2 [⟨0, 0⟩] (fun _ => ⟨0, 0⟩)
     (fun p hp => by
       rcases p with ⟨px, py⟩
       simp only [inGrid] at hp
       have hx : px = 0 := by omega
       have hy : py = 0 := by omega
       subst hx; subst hy
       decide)
     (fun _ => by simp [inGrid])⟩

/-- C8 counterexample: with W=30, H=20 and food away from (16,10), the
body after the first tick is [(16,10),(15,10)], not the singleton
[(16,10)] the claim states (which would also contradict its own
"length stays 2"). -/
theorem scenario_snake_not_singleton :
    (reset_game 30 20 (fun _ => ⟨0, 0⟩)).food ≠ ⟨16, 10⟩ ∧
    (tick 30 20 (fun _ => ⟨0, 0⟩) (reset_game 30 20 (fun _ => ⟨0, 0⟩))).snake =
      [⟨16, 10⟩, ⟨15, 10⟩] ∧
    (tick 30 20 (fun _ => ⟨0, 0⟩) (reset_game 30 20 (fun _ => ⟨0, 0⟩))).snake ≠
      [⟨16, 10⟩] := by
  decide

/-- C8 (amended): with W=30 and H=20 the reset state has head (15,10),
tail (14,10), Direction Right and score 0; after one tick with no turn
input and the food not at (16,10), the head is (16,10), the tail cell
(14,10) is removed so the body is [(16,10),(15,10)], the length stays
2, the score is unchanged and the food is unchanged. -/
theorem scenario_w30_h20 (rnd : List Pos → Pos)
    (hfood : (reset_game 30 20 rnd).food ≠ ⟨16, 10⟩) :
    (reset_game 30 20 rnd).snake = [⟨15, 10⟩, ⟨14, 10⟩] ∧
    (reset_game 30 20 rnd).dir = Dir.Right ∧
    (reset_game 30 20 rnd).score = 0 ∧
    (tick 30 20 rnd (reset_game 30 20 rnd)).snake = [⟨16, 10⟩, ⟨15, 10⟩] ∧
    (tick 30 20 rnd (reset_game 30 20 rnd)).snake.length = 2 ∧
    (tick 30 20 rnd (reset_game 30 20 rnd)).score = 0 ∧
    (tick 30 20 rnd (reset_game 30 20 rnd)).food = (reset_game 30 20 rnd).food := by
  have h1 : (reset_game 30 20 rnd).snake = [⟨15, 10⟩, ⟨14, 10⟩] := by
    show [(⟨30 / 2, 20 / 2⟩ : Pos), ⟨30 / 2 - 1, 20 / 2⟩] = [⟨15, 10⟩, ⟨14, 10⟩]
    norm_num
  have hth : tickHead (reset_game 30 20 rnd) = ⟨16, 10⟩ := by
    rw [tickHead, commitDir]
    show next_head ([(⟨30 / 2, 20 / 2⟩ : Pos), ⟨30 / 2 - 1, 20 / 2⟩]).headI
      (if is_opposite Dir.Right Dir.Right then Dir.Right else Dir.Right) = ⟨16, 10⟩
    norm_num [is_opposite, next_head, List.headI]
  have hne : ¬(tickHead (reset_game 30 20 rnd) = (reset_game 30 20 rnd).food) := by
    rw [hth]
    exact fun he => hfood he.symm
  rw [tick_eq_of_not_gameOver 30 20 rnd _ rfl]
  dsimp only
  rw [if_neg (by rw [hth]; decide), if_neg hne]
  refine ⟨h1, rfl, rfl, ?_, ?_, rfl, rfl⟩
  · show (tickHead (reset_game 30 20 rnd) :: (reset_game 30 20 rnd).snake).dropLast =
      [⟨16, 10⟩, ⟨15, 10⟩]
    rw [hth, h1]
    rfl
  · show (tickHead (reset_game 30 20 rnd) :: (reset_game 30 20 rnd).snake).dropLast.length = 2
    rw [hth, h1]
    rfl

theorem scenario_w30_h20_witness :
    (tick 30 20 (fun _ => ⟨0, 0⟩) (reset_game 30 20 (fun _ => ⟨0, 0⟩))).snake =
      [⟨16, 10⟩, ⟨15, 10⟩] ∧
    (tick 30 20 (fun _ => ⟨0, 0⟩) (reset_game 30 20 (fun _ => ⟨0, 0⟩))).score = 0 :=
  ⟨(scenario_w30_h20 (fun _ => ⟨0, 0⟩) (by decide)).2.2.2.1,
   (scenario_w30_h20 (fun _ => ⟨0, 0⟩) (by decide)).2.2.2.2.2.1⟩

end Snake
